import Mathlib

/-!
Verification of the annotation-canvas interaction core of the corvina
repository: viewport transform (pan/zoom), drawing state machine,
resize/move geometry, connector-line clipping, and annotation-store
mutations.  All numeric code is embedded over the rationals so every
formula of the source is represented exactly.
-/

/-- A 2D point (screen or logical coordinates), embedded over ℚ. -/
structure Point where
  x : ℚ
  y : ℚ
deriving DecidableEq, Repr

/-- Viewport state of ImageViewer / PdfViewer: zoom scale and translation
offset (the components of the `translate(..) scale(..)` transform). -/
structure Viewport where
  scale : ℚ
  position : Point
deriving DecidableEq, Repr

/-- Screen-to-logical conversion: `(screenPoint - offset) / scale`. -/
def screenToLogical (v : Viewport) (p : Point) : Point :=
  ⟨(p.x - v.position.x) / v.scale, (p.y - v.position.y) / v.scale⟩

/-- Wheel-zoom handler of ImageViewer.tsx (lines 147-164; identical in
PdfViewer): `delta = -deltaY * 0.002`, `zoomFactor = 1 + delta`,
`newScale = min(max(0.1, scale * zoomFactor), 10.0)`, and the offset is
recomputed with the zoom-to-point formula around the mouse position. -/
def onWheel (v : Viewport) (mouse : Point) (deltaY : ℚ) : Viewport :=
  let delta := -deltaY * (2 / 1000)
  let zoomFactor := 1 + delta
  let newScale := min (max (1 / 10) (v.scale * zoomFactor)) 10
  let scaleRatio := newScale / v.scale
  ⟨newScale,
   ⟨mouse.x - (mouse.x - v.position.x) * scaleRatio,
    mouse.y - (mouse.y - v.position.y) * scaleRatio⟩⟩

/-- Button-zoom handler `handleZoomValues(delta)` of ImageViewer.tsx
(lines 95-112; identical in PdfViewer): additive scale step clamped into
`[0.1, 10.0]`, zoom-to-point around the container center. -/
def handleZoomValues (v : Viewport) (containerW containerH delta : ℚ) : Viewport :=
  let newScale := min (max (1 / 10) (v.scale + delta)) 10
  let scaleRatio := newScale / v.scale
  let centerX := containerW / 2
  let centerY := containerH / 2
  ⟨newScale,
   ⟨centerX - (centerX - v.position.x) * scaleRatio,
    centerY - (centerY - v.position.y) * scaleRatio⟩⟩

/-- Fit computation of `handleImageLoad` (ImageViewer.tsx lines 69-91):
`fitScale = min(availableW / naturalW, availableH / naturalH, 1.0)` with a
40px padding. -/
def imageFitScale (naturalW naturalH containerW containerH : ℚ) : ℚ :=
  let padding := 40
  let availableWidth := containerW - padding
  let availableHeight := containerH - padding
  min (min (availableWidth / naturalW) (availableHeight / naturalH)) 1

/-- Fit computation of `onPageLoadSuccess` (PdfViewer, lines 374-405):
`fitScale = min(availableW / pageW, availableH / pageH)`, with no cap. -/
def pageFitScale (originalW originalH containerW containerH : ℚ) : ℚ :=
  let padding := 40
  min ((containerW - padding) / originalW) ((containerH - padding) / originalH)

/-- The new scale committed by a wheel zoom is at least 0.1. -/
lemma onWheel_scale_lower (v : Viewport) (mouse : Point) (deltaY : ℚ) :
    1 / 10 ≤ (onWheel v mouse deltaY).scale := by
  simp only [onWheel]
  exact le_min (le_max_left _ _) (by norm_num)

/-- The new scale committed by a button zoom is at least 0.1. -/
lemma handleZoomValues_scale_lower (v : Viewport) (cw ch delta : ℚ) :
    1 / 10 ≤ (handleZoomValues v cw ch delta).scale := by
  simp only [handleZoomValues]
  exact le_min (le_max_left _ _) (by norm_num)

/-- C1: zoom-to-point invariant.  For every viewport whose scale lies in
`[0.1, 10.0]`, every anchor point and every wheel delta (hence every zoom
factor `1 - deltaY*0.002`, clamped into `[0.1, 10.0]`), the logical point
under the anchor is exactly unchanged by the wheel zoom; likewise the
button zoom fixes the logical point under the container center. -/
theorem zoom_to_point_exact (v : Viewport) (p : Point) (deltaY : ℚ)
    (cw ch delta : ℚ) (h1 : 1 / 10 ≤ v.scale) (h2 : v.scale ≤ 10) :
    screenToLogical (onWheel v p deltaY) p = screenToLogical v p ∧
    screenToLogical (handleZoomValues v cw ch delta) ⟨cw / 2, ch / 2⟩ =
      screenToLogical v ⟨cw / 2, ch / 2⟩ := by
  have hs : v.scale ≠ 0 := by positivity
  constructor
  · have hns := onWheel_scale_lower v p deltaY
    have hne : (onWheel v p deltaY).scale ≠ 0 := by positivity
    simp only [onWheel] at hne ⊢
    simp only [screenToLogical, Point.mk.injEq]
    constructor <;> · field_simp; ring
  · have hns := handleZoomValues_scale_lower v cw ch delta
    have hne : (handleZoomValues v cw ch delta).scale ≠ 0 := by positivity
    simp only [handleZoomValues] at hne ⊢
    simp only [screenToLogical, Point.mk.injEq]
    constructor <;> · field_simp; ring

/-- Witness for C1 at the spec scenario: `scale = 1`, `offset = (0,0)`,
wheel at `(300, 200)` with `deltaY = -100`. -/
theorem zoom_to_point_exact_witness :
    ((1 : ℚ) / 10 ≤ 1 ∧ (1 : ℚ) ≤ 10) ∧
    screenToLogical (onWheel ⟨1, ⟨0, 0⟩⟩ ⟨300, 200⟩ (-100)) ⟨300, 200⟩ =
      screenToLogical ⟨1, ⟨0, 0⟩⟩ ⟨300, 200⟩ :=
  ⟨by norm_num,
   (zoom_to_point_exact ⟨1, ⟨0, 0⟩⟩ ⟨300, 200⟩ (-100) 0 0 0
      (by norm_num) (by norm_num)).1⟩

/-- C5 counterexample: the fit-to-container computations are not clamped
into `[0.1, 10.0]`.  A 1000x1000 image in a 50x50 container yields scale
1/100 < 0.1, and a 100x100 page in a 10040x10040 container yields scale
100 > 10. -/
theorem fit_scale_escapes_range :
    imageFitScale 1000 1000 50 50 < 1 / 10 ∧
    10 < pageFitScale 100 100 10040 10040 := by
  constructor <;> norm_num [imageFitScale, pageFitScale]

/-- C5 amended: the wheel-zoom and button-zoom handlers always commit a
scale in `[0.1, 10.0]` (the fit-to-container computations are unclamped
and can land outside this interval). -/
theorem zoom_scale_clamped (v : Viewport) (p : Point) (deltaY : ℚ)
    (cw ch delta : ℚ) :
    (1 / 10 ≤ (onWheel v p deltaY).scale ∧ (onWheel v p deltaY).scale ≤ 10) ∧
    (1 / 10 ≤ (handleZoomValues v cw ch delta).scale ∧
      (handleZoomValues v cw ch delta).scale ≤ 10) := by
  refine ⟨⟨onWheel_scale_lower v p deltaY, ?_⟩,
          ⟨handleZoomValues_scale_lower v cw ch delta, ?_⟩⟩
  · simp only [onWheel]
    exact min_le_right _ _
  · simp only [handleZoomValues]
    exact min_le_right _ _

/-- An annotation record (src/unnamed/part_004): the fields the store
mutations read.  `sourceId`/`targetId` are optional references used by
`connection`-type records. -/
structure Annotation where
  id : String
  type : String
  x : ℚ
  y : ℚ
  width : ℚ
  height : ℚ
  sourceId : Option String
  targetId : Option String
  label : String
  page : Nat
deriving DecidableEq, Repr

/-- `handleDeleteAnnotation` of the image-annotation App
(src/unnamed/part_002 lines 146-159): first drop the record with the
given id, then drop every `connection` record whose `sourceId` or
`targetId` equals that id. -/
def handleDeleteAnnotation (prev : List Annotation) (id : String) :
    List Annotation :=
  let nextAnnotations := prev.filter (fun ann => decide (ann.id ≠ id))
  nextAnnotations.filter (fun ann =>
    if ann.type = "connection" then
      decide (ann.sourceId ≠ some id) && decide (ann.targetId ≠ some id)
    else true)

/-- `handleDeleteAnnotation` of the PDF-annotation App
(src/frontend/src/App.tsx lines 84-86): a plain id filter,
`prev.filter(ann => ann.id !== id)`, with no cascade step. -/
def handleDeleteAnnotationPdfApp (prev : List Annotation) (id : String) :
    List Annotation :=
  prev.filter (fun ann => decide (ann.id ≠ id))

/-- JS `Array.prototype.splice` start-index normalization:
negative indices count from the end (clamped at 0), large indices clamp
to the array length. -/
def spliceStart (len : Nat) (i : Int) : Nat :=
  if i < 0 then ((len : Int) + i).toNat else min i.toNat len

/-- `handleMoveAnnotation` of the App (src/unnamed/part_002 lines
161-171): guarded only on `toIndex` being in range and
`fromIndex ≠ toIndex`; then `splice(fromIndex, 1)` removes at the
normalized index (removing nothing when `fromIndex ≥ length`, in which
case the destructured `movedItem` is `undefined`, modelled as `none`),
and `splice(toIndex, 0, movedItem)` reinserts it. -/
def handleMoveAnnotation (prev : List Annotation) (fromIndex toIndex : Int) :
    List (Option Annotation) :=
  if toIndex < 0 ∨ (prev.length : Int) ≤ toIndex ∨ fromIndex = toIndex then
    prev.map some
  else
    let start := spliceStart prev.length fromIndex
    let movedItem := (prev.drop start).head?
    let arr1 := prev.take start ++ prev.drop (start + 1)
    let start2 := spliceStart arr1.length toIndex
    (arr1.take start2).map some ++ movedItem :: (arr1.drop start2).map some

/-- Sample annotation: a box with id "a". -/
def annBoxA : Annotation := ⟨"a", "box", 0, 0, 1, 1, none, none, "", 1⟩

/-- Sample annotation: a box with id "b". -/
def annBoxB : Annotation := ⟨"b", "box", 2, 2, 1, 1, none, none, "", 1⟩

/-- Sample annotation: a box with id "d". -/
def annBoxD : Annotation := ⟨"d", "box", 4, 4, 1, 1, none, none, "", 1⟩

/-- Sample annotation: a connection from "a" to "b". -/
def annConnAB : Annotation :=
  ⟨"c", "connection", 0, 0, 0, 0, some "a", some "b", "connection", 1⟩

/-- C2 counterexample: the PDF App's delete does not cascade.  Deleting
box "a" from [boxA, connection a→b, boxB] through the App.tsx handler
leaves the connection whose `sourceId` is "a" in the collection,
contradicting the claim that every connection touching the deleted id
is removed. -/
theorem delete_no_cascade_in_pdf_app :
    handleDeleteAnnotationPdfApp [annBoxA, annConnAB, annBoxB] "a" =
      [annConnAB, annBoxB] ∧
    annConnAB.type = "connection" ∧
    annConnAB.sourceId = some "a" ∧
    annConnAB ∈ handleDeleteAnnotationPdfApp [annBoxA, annConnAB, annBoxB] "a" := by
  refine ⟨by decide, rfl, rfl, by decide⟩

/-- C2 amended: the two delete handlers differ.  Deleting an id X
present in the collection through the image-annotation App's handler
(part_002) yields exactly the subsequence of records that neither carry
id X nor are connections touching X — every other annotation is kept,
in order, and the removal is single-level.  The PDF App's handler
(App.tsx) only removes the records carrying id X, in order, with no
cascade. -/
theorem delete_cascade_per_app (prev : List Annotation) (X : String)
    (hX : X ∈ prev.map (fun a => a.id)) :
    handleDeleteAnnotation prev X =
      prev.filter (fun a =>
        decide (a.id ≠ X) &&
        !(decide (a.type = "connection") &&
          (decide (a.sourceId = some X) || decide (a.targetId = some X)))) ∧
    handleDeleteAnnotationPdfApp prev X =
      prev.filter (fun a => decide (a.id ≠ X)) := by
  constructor
  · unfold handleDeleteAnnotation
    rw [List.filter_filter]
    apply List.filter_congr
    intro a _
    by_cases h1 : a.type = "connection" <;>
      by_cases h2 : a.sourceId = some X <;>
        by_cases h3 : a.targetId = some X <;>
          simp [h1, h2, h3]
  · rfl

/-- Witness for C2: deleting box "a" from [boxA, connection a→b, boxB]
leaves exactly boxB under the cascading handler, but keeps the attached
connection under the PDF App's handler. -/
theorem delete_cascade_per_app_witness :
    handleDeleteAnnotation [annBoxA, annConnAB, annBoxB] "a" = [annBoxB] ∧
    handleDeleteAnnotationPdfApp [annBoxA, annConnAB, annBoxB] "a" =
      [annConnAB, annBoxB] := by
  have h := delete_cascade_per_app [annBoxA, annConnAB, annBoxB] "a" (by decide)
  exact ⟨h.1.trans (by decide), h.2.trans (by decide)⟩

/-- C6 counterexample: an out-of-range `fromIndex` with an in-range
`toIndex` is not a no-op.  On a two-element collection,
`reorder(5, 0)` passes the guard (which only checks `toIndex`), removes
nothing, and inserts the `undefined` moved item at the front. -/
theorem reorder_out_of_range_mutates :
    handleMoveAnnotation [annBoxA, annBoxB] 5 0 ≠
      [annBoxA, annBoxB].map some ∧
    handleMoveAnnotation [annBoxA, annBoxB] 5 0 =
      none :: [annBoxA, annBoxB].map some := by
  constructor <;> decide

/-- C6 amended: reorder is a no-op when `toIndex` is out of range or the
indices are equal; when both indices are in range and distinct, it
removes the element at `fromIndex` and reinserts it at `toIndex`,
leaving all other elements present in their relative order.  (An
out-of-range `fromIndex` is not guarded and does mutate the
collection.) -/
theorem reorder_guard_and_move (prev : List Annotation) (fI tI : Int) :
    ((tI < 0 ∨ (prev.length : Int) ≤ tI ∨ fI = tI) →
        handleMoveAnnotation prev fI tI = prev.map some) ∧
    (∀ (f t : Nat) (hf : f < prev.length), t < prev.length → f ≠ t →
        handleMoveAnnotation prev (f : Int) (t : Int) =
          ((prev.take f ++ prev.drop (f + 1)).take t).map some ++
            some (prev.get ⟨f, hf⟩) ::
              ((prev.take f ++ prev.drop (f + 1)).drop t).map some) := by
  constructor
  · intro h
    unfold handleMoveAnnotation
    rw [if_pos h]
  · intro f t hf ht hft
    unfold handleMoveAnnotation
    rw [if_neg (by omega)]
    have h1 : spliceStart prev.length (f : Int) = f := by
      unfold spliceStart
      rw [if_neg (by omega)]
      omega
    have harr : (prev.take f ++ prev.drop (f + 1)).length = prev.length - 1 := by
      simp only [List.length_append, List.length_take, List.length_drop]
      omega
    have h2 : spliceStart (prev.take f ++ prev.drop (f + 1)).length (t : Int) = t := by
      unfold spliceStart
      rw [if_neg (by omega), harr]
      omega
    have hmoved : (prev.drop f).head? = some (prev.get ⟨f, hf⟩) := by
      rw [List.head?_drop]
      simp [List.getElem?_eq_getElem hf, List.get_eq_getElem]
    simp only [h1, h2, hmoved]

/-- Witness for C6: moving the first of three annotations to the last
slot produces [b, d, a] with every element intact. -/
theorem reorder_guard_and_move_witness :
    handleMoveAnnotation [annBoxA, annBoxB, annBoxD] 0 2 =
      [some annBoxB, some annBoxD, some annBoxA] := by
  have h := (reorder_guard_and_move [annBoxA, annBoxB, annBoxD] 0 2).2
    0 2 (by decide) (by decide) (by decide)
  simpa using h

/-- A committed rectangle: position and non-negative dimensions. -/
structure Rect where
  x : ℚ
  y : ℚ
  width : ℚ
  height : ℚ
deriving DecidableEq, Repr

/-- In-progress drag state (`currentBox` / `currentLine` of
AnnotationOverlay.tsx): anchor and current pointer position. -/
structure DragBox where
  startX : ℚ
  startY : ℚ
  currX : ℚ
  currY : ℚ
deriving DecidableEq, Repr

/-- Box branch of `handleMouseUp` (AnnotationOverlay.tsx lines 280-292):
normalize the drag to `x = min`, `y = min`, `width = |Δx|`,
`height = |Δy|` and commit only when both dimensions exceed 0.5. -/
def commitBox (b : DragBox) : Option Rect :=
  let x := min b.startX b.currX
  let y := min b.startY b.currY
  let width := |b.currX - b.startX|
  let height := |b.currY - b.startY|
  if width > 1 / 2 ∧ height > 1 / 2 then some ⟨x, y, width, height⟩ else none

/-- C3: box commit.  A pointer-up commits an annotation iff both drag
extents exceed 0.5, and the committed bounding box is the component-wise
min corner with absolute-value dimensions; the (100,100)→(40,40) drag
commits x=40, y=40, width=60, height=60. -/
theorem box_commit_characterization :
    (∀ (b : DragBox) (r : Rect),
      commitBox b = some r ↔
        1 / 2 < |b.currX - b.startX| ∧ 1 / 2 < |b.currY - b.startY| ∧
          r = ⟨min b.startX b.currX, min b.startY b.currY,
               |b.currX - b.startX|, |b.currY - b.startY|⟩) ∧
    commitBox ⟨100, 100, 40, 40⟩ = some ⟨40, 40, 60, 60⟩ := by
  constructor
  · intro b r
    simp only [commitBox]
    by_cases h : 1 / 2 < |b.currX - b.startX| ∧ 1 / 2 < |b.currY - b.startY|
    · rw [if_pos h]
      simp only [Option.some.injEq]
      constructor
      · intro h'
        exact ⟨h.1, h.2, h'.symm⟩
      · intro h'
        exact h'.2.2.symm
    · rw [if_neg h]
      simp only [false_iff, reduceCtorEq]
      rintro ⟨ha, hb, -⟩
      exact h ⟨ha, hb⟩
  · norm_num [commitBox]

/-- Resize branch of `handleMouseMove` (AnnotationOverlay.tsx lines
229-256), as a function of the handle, the rect captured at drag start,
and the pointer delta (already divided by `coordinateScale`).  East and
south handles grow the dimension through `max(0.5, orig + delta)`;
west and north handles clamp the delta to `orig - 0.5` before moving
the edge. -/
def resizeRect (handle : String) (origX origY origW origH dx dy : ℚ) : Rect :=
  if handle = "move" then ⟨origX + dx, origY + dy, origW, origH⟩
  else
    let w1 := if handle.contains 'e' then max (1 / 2) (origW + dx) else origW
    let h1 := if handle.contains 's' then max (1 / 2) (origH + dy) else origH
    let xw := if handle.contains 'w' then
        let validDelta := min (origW - 1 / 2) dx
        (origX + validDelta, w1 - validDelta)
      else (origX, w1)
    let yh := if handle.contains 'n' then
        let validDelta := min (origH - 1 / 2) dy
        (origY + validDelta, h1 - validDelta)
      else (origY, h1)
    ⟨xw.1, yh.1, xw.2, yh.2⟩

/-- C4: resize floor.  For every handle string and every pointer delta,
starting from a rect whose dimensions are at least 0.5, the emitted rect
keeps both dimensions at least 0.5; no delta can push a dimension
negative or through zero from either side. -/
theorem resize_floor (handle : String) (origX origY origW origH dx dy : ℚ)
    (hw : 1 / 2 ≤ origW) (hh : 1 / 2 ≤ origH) :
    1 / 2 ≤ (resizeRect handle origX origY origW origH dx dy).width ∧
    1 / 2 ≤ (resizeRect handle origX origY origW origH dx dy).height := by
  unfold resizeRect
  have hmw1 := le_max_left (1 / 2 : ℚ) (origW + dx)
  have hmw2 := le_max_right (1 / 2 : ℚ) (origW + dx)
  have hmh1 := le_max_left (1 / 2 : ℚ) (origH + dy)
  have hmh2 := le_max_right (1 / 2 : ℚ) (origH + dy)
  have hnw1 := min_le_left (origW - 1 / 2) dx
  have hnw2 := min_le_right (origW - 1 / 2) dx
  have hnh1 := min_le_left (origH - 1 / 2) dy
  have hnh2 := min_le_right (origH - 1 / 2) dy
  split_ifs <;> constructor <;> simp only <;> linarith

/-- Witness for C4: a north-west drag of (-100, -100) on a 1x1 rect at
the origin keeps both dimensions at least 0.5. -/
theorem resize_floor_witness :
    ((1 : ℚ) / 2 ≤ 1 ∧ (1 : ℚ) / 2 ≤ 1) ∧
    (1 / 2 ≤ (resizeRect "nw" 0 0 1 1 (-100) (-100)).width ∧
     1 / 2 ≤ (resizeRect "nw" 0 0 1 1 (-100) (-100)).height) :=
  ⟨by norm_num,
   resize_floor "nw" 0 0 1 1 (-100) (-100) (by norm_num) (by norm_num)⟩

/-- `resizeState` of AnnotationOverlay.tsx: the rect and mouse position
captured when a resize/move drag starts. -/
structure ResizeState where
  id : String
  handle : String
  startMouseX : ℚ
  startMouseY : ℚ
  originalX : ℚ
  originalY : ℚ
  originalW : ℚ
  originalH : ℚ
deriving DecidableEq, Repr

/-- The gesture state of AnnotationOverlay.tsx: in-progress box drag,
in-progress line drag, pending connection source, and active
resize/move drag. -/
structure OverlayState where
  currentBox : Option DragBox
  currentLine : Option DragBox
  pendingSourceId : Option String
  resizeState : Option ResizeState
deriving DecidableEq, Repr

/-- Payload handed to `onAddAnnotation` by the overlay (the annotation
minus id/label/page, which the App fills in). -/
structure AddPayload where
  x : ℚ
  y : ℚ
  width : ℚ
  height : ℚ
  type : String
  sourceId : Option String
  targetId : Option String
deriving DecidableEq, Repr

/-- Callbacks the overlay can fire towards the annotation store:
`onAddAnnotation`, `onResizeAnnotation`, `onFinishDrawing`. -/
inductive Emit where
  | addAnn : AddPayload → Emit
  | resizeAnn : String → Rect → Emit
  | finishDrawing : Emit
deriving DecidableEq, Repr

/-- Tool context of the overlay: `isDrawing`, `toolMode`, `lockedTypes`. -/
structure ToolCtx where
  isDrawing : Bool
  toolMode : String
  lockedTypes : List String
deriving DecidableEq, Repr

/-- `onMouseLeave` of the overlay root element (AnnotationOverlay.tsx
lines 360-364): clears `currentBox`, `currentLine` and `resizeState`,
fires no callback.  It does not touch `pendingSourceId`. -/
def onMouseLeave (s : OverlayState) : OverlayState × List Emit :=
  ({ s with currentBox := none, currentLine := none, resizeState := none }, [])

/-- `startResizeOrMove` (AnnotationOverlay.tsx lines 164-221): locked
types are inert (an optional external click callback fires, which does
not mutate the store); in connection mode the first eligible click
stores the pending source, a second click on a different annotation
emits the connection and finishes, a second click on the same
annotation does nothing; in any other drawing mode nothing happens;
otherwise a resize/move drag starts. -/
def startResizeOrMove (ctx : ToolCtx) (s : OverlayState)
    (ann : Annotation) (handle : String) (clientX clientY : ℚ) :
    OverlayState × List Emit :=
  if ctx.lockedTypes.contains ann.type then (s, [])
  else if ctx.isDrawing ∧ ctx.toolMode = "connection" then
    match s.pendingSourceId with
    | none => ({ s with pendingSourceId := some ann.id }, [])
    | some pid =>
      if pid ≠ ann.id then
        ({ s with pendingSourceId := none },
         [Emit.addAnn ⟨0, 0, 0, 0, "connection", some pid, some ann.id⟩,
          Emit.finishDrawing])
      else (s, [])
  else if ctx.isDrawing then (s, [])
  else
    let st : ResizeState :=
      ⟨ann.id, handle, clientX, clientY, ann.x, ann.y, ann.width, ann.height⟩
    ({ s with resizeState := some st }, [])

/-- `handleMouseDown` of the overlay root (AnnotationOverlay.tsx lines
135-162): ignored unless drawing; in connection mode it only clears the
pending source; otherwise (left button) it starts a line or box drag, or
immediately commits a unit-square node. -/
def handleMouseDown (ctx : ToolCtx) (s : OverlayState) (button : Nat)
    (x y : ℚ) : OverlayState × List Emit :=
  if ¬ctx.isDrawing then (s, [])
  else if ctx.toolMode = "connection" then
    ({ s with pendingSourceId := none }, [])
  else if button ≠ 0 then (s, [])
  else if ctx.toolMode = "line" then
    ({ s with currentLine := some ⟨x, y, x, y⟩ }, [])
  else if ctx.toolMode = "node" then
    (s, [Emit.addAnn ⟨x - 1 / 2, y - 1 / 2, 1, 1, "node", none, none⟩,
         Emit.finishDrawing])
  else if ctx.toolMode = "box" then
    ({ s with currentBox := some ⟨x, y, x, y⟩ }, [])
  else (s, [])

/-- `handleMouseMove` of the overlay root (AnnotationOverlay.tsx lines
223-270): with an active resize/move drag it emits the recomputed rect
(deltas are total client-coordinate offsets from the drag start divided
by `coordinateScale`) and leaves all gesture state untouched; otherwise
while drawing it advances the current box or line drag. -/
def handleMouseMove (ctx : ToolCtx) (cs : ℚ) (s : OverlayState)
    (clientX clientY relX relY : ℚ) : OverlayState × List Emit :=
  match s.resizeState with
  | some st =>
    (s, [Emit.resizeAnn st.id
          (resizeRect st.handle st.originalX st.originalY st.originalW st.originalH
            ((clientX - st.startMouseX) / cs) ((clientY - st.startMouseY) / cs))])
  | none =>
    if ¬ctx.isDrawing then (s, [])
    else
      match s.currentBox with
      | some b => ({ s with currentBox := some ⟨b.startX, b.startY, relX, relY⟩ }, [])
      | none =>
        match s.currentLine with
        | some l => ({ s with currentLine := some ⟨l.startX, l.startY, relX, relY⟩ }, [])
        | none => (s, [])

/-- C7 counterexample: pointer-leave does not reset a pending connection
source.  With source "a" pending, after `onMouseLeave` the pending
source is still "a", not Idle. -/
theorem mouse_leave_keeps_pending :
    (onMouseLeave ⟨none, none, some "a", none⟩).1.pendingSourceId ≠ none ∧
    (onMouseLeave ⟨none, none, some "a", none⟩).1.pendingSourceId = some "a" := by
  constructor <;> decide

/-- C7 amended: pointer-leave cancels any in-progress box drag, line
drag and resize/move drag (that state is cleared and no callback fires,
so no annotation is added and no geometry changes), but a pending
connection source is left unchanged (it is only cleared by a later
pointer-down on empty canvas). -/
theorem mouse_leave_cancels_without_commit (s : OverlayState) :
    (onMouseLeave s).1.currentBox = none ∧
    (onMouseLeave s).1.currentLine = none ∧
    (onMouseLeave s).1.resizeState = none ∧
    (onMouseLeave s).2 = [] ∧
    (onMouseLeave s).1.pendingSourceId = s.pendingSourceId :=
  ⟨rfl, rfl, rfl, rfl, rfl⟩

/-- A rectangle as used by the connector-clipping helper (fields named
as in the source: x, y, w, h). -/
structure Box where
  x : ℚ
  y : ℚ
  w : ℚ
  h : ℚ
deriving DecidableEq, Repr

/-- `getRectIntersection` (AnnotationOverlay.tsx lines 67-101): the
slope is `|dy/dx|` when `|dx| > 0.001` and the sentinel 1000 otherwise;
comparing it with `h/w` picks the exit face, and the midpoint of that
face is returned (`center` is the box center, so `center.y` is the
vertical midpoint and `center.x` the horizontal one). -/
def getRectIntersection (box : Box) (center otherCenter : Point) : Point :=
  let dx := otherCenter.x - center.x
  let dy := otherCenter.y - center.y
  let slope := if |dx| > 1 / 1000 then |dy / dx| else 1000
  let boxRatio := box.h / box.w
  if slope < boxRatio then
    if dx > 0 then ⟨box.x + box.w, center.y⟩ else ⟨box.x, center.y⟩
  else
    if dy > 0 then ⟨center.x, box.y + box.h⟩ else ⟨center.x, box.y⟩

/-- The face-selection rule exactly as the claim words it: the true
slope magnitude `|Δy/Δx|` is compared against `h/w` with no epsilon
guard, and the midpoint of the selected face is returned. -/
def rectEdgeIntersectionClaim (box : Box) (center otherCenter : Point) : Point :=
  let dx := otherCenter.x - center.x
  let dy := otherCenter.y - center.y
  if |dy / dx| < box.h / box.w then
    if dx > 0 then ⟨box.x + box.w, box.y + box.h / 2⟩
    else ⟨box.x, box.y + box.h / 2⟩
  else
    if dy > 0 then ⟨box.x + box.w / 2, box.y + box.h⟩
    else ⟨box.x + box.w / 2, box.y⟩

/-- C8 counterexample: the code guards the slope with an epsilon
(`|dx| > 0.001`), the claim's rule does not.  For the 1x2 box at the
origin with ray direction (1/2000, 1/2000) from its center, the true
slope is 1 < 2 so the claim picks the right-face midpoint (1, 1), but
the code substitutes slope 1000 ≥ 2 and returns the bottom-face
midpoint (1/2, 2). -/
theorem rect_intersection_claim_counterexample :
    getRectIntersection ⟨0, 0, 1, 2⟩ ⟨1 / 2, 1⟩ ⟨1 / 2 + 1 / 2000, 1 + 1 / 2000⟩ =
      ⟨1 / 2, 2⟩ ∧
    rectEdgeIntersectionClaim ⟨0, 0, 1, 2⟩ ⟨1 / 2, 1⟩ ⟨1 / 2 + 1 / 2000, 1 + 1 / 2000⟩ =
      ⟨1, 1⟩ ∧
    getRectIntersection ⟨0, 0, 1, 2⟩ ⟨1 / 2, 1⟩ ⟨1 / 2 + 1 / 2000, 1 + 1 / 2000⟩ ≠
      rectEdgeIntersectionClaim ⟨0, 0, 1, 2⟩ ⟨1 / 2, 1⟩ ⟨1 / 2 + 1 / 2000, 1 + 1 / 2000⟩ := by
  have e1 : |(1 / 2000 : ℚ)| = 1 / 2000 := abs_of_pos (by norm_num)
  have h1 : getRectIntersection ⟨0, 0, 1, 2⟩ ⟨1 / 2, 1⟩
      ⟨1 / 2 + 1 / 2000, 1 + 1 / 2000⟩ = ⟨1 / 2, 2⟩ := by
    norm_num [getRectIntersection, e1, Point.mk.injEq]
  have h2 : rectEdgeIntersectionClaim ⟨0, 0, 1, 2⟩ ⟨1 / 2, 1⟩
      ⟨1 / 2 + 1 / 2000, 1 + 1 / 2000⟩ = ⟨1, 1⟩ := by
    norm_num [rectEdgeIntersectionClaim, abs_one, Point.mk.injEq]
  refine ⟨h1, h2, ?_⟩
  rw [h1, h2]
  norm_num [Point.mk.injEq]

/-- C8 amended: with `centerA` at the box center, the function returns
the midpoint of the face selected by the guarded aspect-ratio test
(slope is `|Δy/Δx|` only when `|Δx| > 0.001`, else the sentinel 1000):
right/left face midpoint by sign of `Δx` when the slope is below `h/w`,
bottom/top face midpoint by sign of `Δy` otherwise — never the true
ray-rectangle intersection. -/
theorem rect_intersection_midpoint_rule (box : Box) (cA cB : Point)
    (hc : cA = ⟨box.x + box.w / 2, box.y + box.h / 2⟩) :
    getRectIntersection box cA cB =
      (let dx := cB.x - cA.x
       let dy := cB.y - cA.y
       let slope := if |dx| > 1 / 1000 then |dy / dx| else 1000
       if slope < box.h / box.w then
         if dx > 0 then ⟨box.x + box.w, box.y + box.h / 2⟩
         else ⟨box.x, box.y + box.h / 2⟩
       else
         if dy > 0 then ⟨box.x + box.w / 2, box.y + box.h⟩
         else ⟨box.x + box.w / 2, box.y⟩) := by
  subst hc
  dsimp only [getRectIntersection]

/-- Witness for C8: a horizontal ray from the center of the 2x2 box at
the origin exits at the right-face midpoint (2, 1). -/
theorem rect_intersection_midpoint_rule_witness :
    getRectIntersection ⟨0, 0, 2, 2⟩ ⟨1, 1⟩ ⟨5, 1⟩ = ⟨2, 1⟩ := by
  have e4 : |(4 : ℚ)| = 4 := abs_of_pos (by norm_num)
  have h := rect_intersection_midpoint_rule ⟨0, 0, 2, 2⟩ ⟨1, 1⟩ ⟨5, 1⟩
    (by norm_num [Point.mk.injEq])
  refine h.trans ?_
  norm_num [e4, abs_zero, Point.mk.injEq]

/-- C9: no self-loop at connection creation.  Any annotation payload the
click handler emits is a connection from the pending source to the
clicked annotation with distinct endpoints; clicking the pending source
again emits nothing; and a pointer-down on empty canvas while drawing in
connection mode resets the pending source without emitting. -/
theorem connection_no_self_loop (ctx : ToolCtx) (s : OverlayState)
    (ann : Annotation) (handle : String) (clientX clientY : ℚ)
    (button : Nat) (x y : ℚ) :
    (∀ pl, Emit.addAnn pl ∈ (startResizeOrMove ctx s ann handle clientX clientY).2 →
        pl.type = "connection" ∧ pl.sourceId = s.pendingSourceId ∧
        pl.targetId = some ann.id ∧ pl.sourceId ≠ pl.targetId) ∧
    (s.pendingSourceId = some ann.id →
        (startResizeOrMove ctx s ann handle clientX clientY).2 = []) ∧
    (ctx.isDrawing = true → ctx.toolMode = "connection" →
        handleMouseDown ctx s button x y =
          ({ s with pendingSourceId := none }, [])) := by
  refine ⟨?_, ?_, ?_⟩
  · intro pl hmem
    unfold startResizeOrMove at hmem
    by_cases hlock : ctx.lockedTypes.contains ann.type
    · rw [if_pos hlock] at hmem
      simp at hmem
    · rw [if_neg hlock] at hmem
      by_cases hconn : ctx.isDrawing ∧ ctx.toolMode = "connection"
      · rw [if_pos hconn] at hmem
        rcases hp : s.pendingSourceId with _ | pid
        · rw [hp] at hmem
          simp at hmem
        · rw [hp] at hmem
          by_cases hne : pid ≠ ann.id
          · simp [hne] at hmem
            subst hmem
            refine ⟨rfl, rfl, rfl, ?_⟩
            simp only [ne_eq, Option.some.injEq]
            exact hne
          · have hEq : pid = ann.id := not_not.mp hne
            simp [hEq] at hmem
      · rw [if_neg hconn] at hmem
        by_cases hdraw : ctx.isDrawing
        · rw [if_pos hdraw] at hmem
          simp at hmem
        · rw [if_neg hdraw] at hmem
          simp at hmem
  · intro hp
    unfold startResizeOrMove
    rw [hp]
    split_ifs <;> simp
  · intro h1 h2
    unfold handleMouseDown
    simp [h1, h2]

/-- Witness for C9: with source "a" pending, clicking box "b" emits a
connection a→b whose endpoints differ. -/
theorem connection_no_self_loop_witness :
    (Emit.addAnn ⟨0, 0, 0, 0, "connection", some "a", some "b"⟩ ∈
      (startResizeOrMove ⟨true, "connection", []⟩ ⟨none, none, some "a", none⟩
        annBoxB "move" 0 0).2) ∧
    (some "a" : Option String) ≠ some "b" := by
  refine ⟨by decide, ?_⟩
  have h := (connection_no_self_loop ⟨true, "connection", []⟩
      ⟨none, none, some "a", none⟩ annBoxB "move" 0 0 0 0 0).1
      ⟨0, 0, 0, 0, "connection", some "a", some "b"⟩ (by decide)
  exact h.2.2.2

/-- One pointer-move event: client coordinates (used by the resize
branch) and overlay-relative coordinates (used by the drawing branch). -/
structure MoveEvent where
  clientX : ℚ
  clientY : ℚ
  relX : ℚ
  relY : ℚ
deriving DecidableEq, Repr

/-- The rect update emitted for a resize/move drag at a given pointer
position: computed from the state captured at drag start and the total
client-coordinate delta divided by `coordinateScale`. -/
def resizeEmit (cs : ℚ) (st : ResizeState) (clientX clientY : ℚ) : Emit :=
  Emit.resizeAnn st.id
    (resizeRect st.handle st.originalX st.originalY st.originalW st.originalH
      ((clientX - st.startMouseX) / cs) ((clientY - st.startMouseY) / cs))

/-- Processing a sequence of pointer-move events in arrival order,
collecting every emitted callback. -/
def runMoves (ctx : ToolCtx) (cs : ℚ) (s : OverlayState) :
    List MoveEvent → OverlayState × List Emit
  | [] => (s, [])
  | m :: ms =>
    let step := handleMouseMove ctx cs s m.clientX m.clientY m.relX m.relY
    let rest := runMoves ctx cs step.1 ms
    (rest.1, step.2 ++ rest.2)

/-- With an active resize/move drag, a pointer-move leaves the gesture
state untouched and emits exactly the rect recomputed from the start
state and the current pointer. -/
lemma handleMouseMove_resize (ctx : ToolCtx) (cs : ℚ) (s : OverlayState)
    (clientX clientY relX relY : ℚ) (st : ResizeState)
    (h : s.resizeState = some st) :
    handleMouseMove ctx cs s clientX clientY relX relY =
      (s, [resizeEmit cs st clientX clientY]) := by
  unfold handleMouseMove resizeEmit
  rw [h]

/-- With an active resize/move drag, processing any event sequence
leaves the state unchanged and emits one rect per event, each a function
of that event's pointer position alone. -/
lemma runMoves_resize (ctx : ToolCtx) (cs : ℚ) (s : OverlayState)
    (st : ResizeState) (ms : List MoveEvent) (h : s.resizeState = some st) :
    runMoves ctx cs s ms =
      (s, ms.map (fun m => resizeEmit cs st m.clientX m.clientY)) := by
  induction ms with
  | nil => rfl
  | cons m ms ih =>
    simp only [runMoves]
    rw [handleMouseMove_resize ctx cs s m.clientX m.clientY m.relX m.relY st h]
    simp [ih]

/-- C10: resize/move drags are path-independent.  During an active
resize/move gesture, every emitted rect is computed only from the rect
captured at drag start and the current pointer's total delta; hence for
any two nonempty move sequences ending at the same pointer position the
final emitted update is identical, and it equals the recomputation at
the final pointer alone. -/
theorem resize_path_independent (ctx : ToolCtx) (cs : ℚ) (s : OverlayState)
    (st : ResizeState) (ms1 ms2 : List MoveEvent)
    (h : s.resizeState = some st) (h1 : ms1 ≠ []) (h2 : ms2 ≠ [])
    (hlast : ms1.getLast?.map (fun m => (m.clientX, m.clientY)) =
             ms2.getLast?.map (fun m => (m.clientX, m.clientY))) :
    (runMoves ctx cs s ms1).2.getLast? = (runMoves ctx cs s ms2).2.getLast? ∧
    (runMoves ctx cs s ms1).2.getLast? =
      ms1.getLast?.map (fun m => resizeEmit cs st m.clientX m.clientY) := by
  rw [runMoves_resize ctx cs s st ms1 h, runMoves_resize ctx cs s st ms2 h]
  refine ⟨?_, by simp [List.getLast?_map]⟩
  rcases hm1 : ms1.getLast? with _ | m1
  · exact absurd (List.getLast?_eq_none_iff.mp hm1) h1
  rcases hm2 : ms2.getLast? with _ | m2
  · exact absurd (List.getLast?_eq_none_iff.mp hm2) h2
  rw [hm1, hm2] at hlast
  simp only [Option.map_some', Option.some.injEq, Prod.mk.injEq] at hlast
  simp [List.getLast?_map, hm1, hm2, resizeEmit, hlast.1, hlast.2]

/-- Witness for C10: a two-step drag and a one-step drag ending at the
same pointer position emit the same final rect. -/
theorem resize_path_independent_witness :
    (runMoves ⟨false, "box", []⟩ 1
        ⟨none, none, none, some ⟨"a", "se", 0, 0, 0, 0, 4, 4⟩⟩
        [⟨1, 1, 1, 1⟩, ⟨3, 2, 3, 2⟩]).2.getLast? =
      (runMoves ⟨false, "box", []⟩ 1
        ⟨none, none, none, some ⟨"a", "se", 0, 0, 0, 0, 4, 4⟩⟩
        [⟨3, 2, 3, 2⟩]).2.getLast? :=
  (resize_path_independent ⟨false, "box", []⟩ 1
    ⟨none, none, none, some ⟨"a", "se", 0, 0, 0, 0, 4, 4⟩⟩
    ⟨"a", "se", 0, 0, 0, 0, 4, 4⟩
    [⟨1, 1, 1, 1⟩, ⟨3, 2, 3, 2⟩] [⟨3, 2, 3, 2⟩]
    rfl (by simp) (by simp) rfl).1
